import Mathlib

/-!
Verification development for the muhurta calculator repository.

The engine is embedded shallowly:

* A JavaScript `Date` is modelled at day resolution (UTC) by its epoch day,
  the integer number of days since 1970-01-01.  `Date.prototype.getDay` and
  `Date.prototype.getMonth` are implemented as arithmetic on the epoch day
  (the standard civil-from-days calendar algorithm), and `getTime`
  differences divided by 86 400 000 and floored agree with epoch-day
  differences for any time of day.
* Ecliptic longitudes and Julian-day instants are modelled as rationals,
  so the prototype's floating-point arithmetic is exact here.
* The JavaScript remainder operator `%` on integers truncates toward zero;
  it is modelled by `Int.tmod`.
* `Array.prototype.sort` is stable (ECMAScript 2019); a stable sort is a
  unique function of the comparator, so it is modelled by the stable
  insertion sort `List.insertionSort`.
* `Math.random()`-driven choices are modelled by an explicit stream of
  draws passed as an argument.
-/

/-- JavaScript `Date.prototype.getDay` for a date given as an epoch day:
day of week with Sunday = 0.  1970-01-01 (epoch day 0) was a Thursday (4). -/
def jsGetDay (epochDay : Int) : Int :=
  (epochDay + 4).emod 7

/-- JavaScript `Date.prototype.getMonth` for a date given as an epoch day:
zero-based month (January = 0), via the standard civil-from-days
calendar algorithm (proleptic Gregorian). -/
def jsGetMonth (epochDay : Int) : Int :=
  let z := epochDay + 719468
  let era := z.ediv 146097
  let doe := (z - era * 146097).toNat
  let yoe := (doe - doe / 1460 + doe / 36524 - doe / 146096) / 365
  let doy := doe - (365 * yoe + yoe / 4 - yoe / 100)
  let mp := (5 * doy + 2) / 153
  let m := if mp < 10 then mp + 3 else mp - 9
  (m : Int) - 1

/-- Epoch day of 2024-01-01, the `baseDate` hard-coded in `App.tsx`. -/
def baseEpochDay : Int := 19723

/-- `NAKSHATRAS` from `App.tsx`. -/
def NAKSHATRAS : List String :=
  ["Ashwini", "Bharani", "Krittika", "Rohini", "Mrigashira", "Ardra",
   "Punarvasu", "Pushya", "Ashlesha", "Magha", "Purva Phalguni", "Uttara Phalguni",
   "Hasta", "Chitra", "Swati", "Vishakha", "Anuradha", "Jyeshtha",
   "Mula", "Purva Ashadha", "Uttara Ashadha", "Shravana", "Dhanishta",
   "Shatabhisha", "Purva Bhadrapada", "Uttara Bhadrapada", "Revati"]

/-- The keys of the static `EVENT_TYPES` catalog in `App.tsx`. -/
inductive EventKey where
  | wedding | travel | business | property | education
deriving DecidableEq

/-- The `auspicious` tithi list of each `EVENT_TYPES` entry in `App.tsx`
(display-only fields `name`, `icon`, `color` are omitted). -/
def eventAuspicious : EventKey → List Int
  | .wedding => [1, 3, 5, 7, 10, 11, 13]
  | .travel => [2, 4, 6, 8, 10, 12, 14]
  | .business => [1, 2, 5, 9, 11, 13, 15]
  | .property => [2, 5, 7, 10, 12, 14]
  | .education => [1, 4, 5, 9, 10, 11]

/-- `BirthData` from `App.tsx`.  The source stores the birth date as an ISO
string; it is modelled by the epoch day that string denotes. -/
structure BirthData where
  date : Int
  time : String
  location : String
deriving DecidableEq

/-- `calculateLunarDay` from `App.tsx`: days since 2024-01-01, JS-remainder
by 30, plus one. -/
def calculateLunarDay (epochDay : Int) : Int :=
  let diffDays := epochDay - baseEpochDay
  diffDays.tmod 30 + 1

/-- `getNakshatra` from `App.tsx`: `NAKSHATRAS[diffDays % 27]`.  A negative
JS index reads `undefined`, modelled as `none`. -/
def getNakshatra (epochDay : Int) : Option String :=
  let diffDays := epochDay - baseEpochDay
  let idx := diffDays.tmod 27
  if idx < 0 then none else NAKSHATRAS.get? idx.toNat

/-- The `auspiciousDays` weekday-bonus table in `calculateMuhuratScore`
(`{ 1: 15, 3: 20, 4: 10, 5: 15 }`, i.e. Mon, Wed, Thu, Fri; `|| 0`). -/
def auspiciousDayBonus (dayOfWeek : Int) : Int :=
  if dayOfWeek = 1 then 15
  else if dayOfWeek = 3 then 20
  else if dayOfWeek = 4 then 10
  else if dayOfWeek = 5 then 15
  else 0

/-- The `auspiciousNakshatras` list in `calculateMuhuratScore`. -/
def auspiciousNakshatras : List String :=
  ["Rohini", "Pushya", "Hasta", "Swati", "Uttara Phalguni"]

/-- The nakshatra-membership test in `calculateMuhuratScore`
(`auspiciousNakshatras.includes(nakshatra)`; `includes(undefined)` is
false since the list holds only strings). -/
def nakshatraBonusApplies : Option String → Bool
  | some n => auspiciousNakshatras.contains n
  | none => false

/-- `calculateMuhuratScore` from `App.tsx`, on a candidate date given as an
epoch day. -/
def calculateMuhuratScore (epochDay : Int) (eventType : EventKey)
    (birthData : BirthData) : Int :=
  let tithi := calculateLunarDay epochDay
  let nakshatra := getNakshatra epochDay
  let dayOfWeek := jsGetDay epochDay
  let score : Int := 50
  let score := if (eventAuspicious eventType).contains tithi then score + 25 else score
  let score := score + auspiciousDayBonus dayOfWeek
  let score := if nakshatraBonusApplies nakshatra then score + 15 else score
  let birthMonth := jsGetMonth birthData.date
  let currentMonth := jsGetMonth epochDay
  let score := if (currentMonth - birthMonth).tmod 6 = 0 then score + 10 else score
  min 100 (max 10 score)

/-- A `Muhurat` record from `App.tsx`.  `id` keeps the loop index `i` that
the source interpolates into the `id` string, and `date` keeps the epoch
day that the source formats as an ISO date string. -/
structure Muhurat where
  id : Nat
  date : Int
  time : String
  score : Int
  nakshatra : Option String
  tithi : Int
  description : String
deriving DecidableEq

/-- The `timeSlots` array in `generateOptimizedMuhurats`. -/
def timeSlots : List String := ["06:00", "07:30", "10:15", "11:45"]

/-- Materialization of one `Muhurat` pushed by `generateOptimizedMuhurats`
for day offset `i`, with a chosen time-slot index `slot`. -/
def mkMuhurat (birthData : BirthData) (eventType : EventKey) (today : Int)
    (slot : Fin 4) (i : Nat) : Muhurat :=
  let epochDay := today + (i : Int)
  let score := calculateMuhuratScore epochDay eventType birthData
  { id := i
    date := epochDay
    time := timeSlots.getD slot.val ""
    score := score
    nakshatra := getNakshatra epochDay
    tithi := calculateLunarDay epochDay
    description :=
      if 85 < score then "Exceptionally auspicious"
      else if 75 < score then "Highly favorable"
      else "Auspicious" }

/-- The 90-day loop of `generateOptimizedMuhurats`.  `k` is the number of
muhurats pushed so far (`muhurats.length` in the source); `rng k` models
the `Math.floor(Math.random() * timeSlots.length)` draw made for the
`k`-th push. -/
def genLoop (birthData : BirthData) (eventType : EventKey) (today : Int)
    (rng : Nat → Fin 4) (k : Nat) : List Nat → List Muhurat
  | [] => []
  | i :: rest =>
    let score := calculateMuhuratScore (today + (i : Int)) eventType birthData
    if 60 ≤ score then
      mkMuhurat birthData eventType today (rng k) i ::
        genLoop birthData eventType today rng (k + 1) rest
    else
      genLoop birthData eventType today rng k rest

/-- The comparator ordering of `muhurats.sort((a, b) => b.score - a.score)`:
descending by score. -/
def scoreGE (a b : Muhurat) : Prop := b.score ≤ a.score

instance : DecidableRel scoreGE := fun a b => Int.decLe b.score a.score

/-- `generateOptimizedMuhurats` from `App.tsx`: score the 90 days from
`today`, keep scores ≥ 60, stable-sort descending by score, take 20. -/
def generateOptimizedMuhurats (birthData : BirthData) (eventType : EventKey)
    (today : Int) (rng : Nat → Fin 4) : List Muhurat :=
  (List.insertionSort scoreGE
    (genLoop birthData eventType today rng 0 (List.range 90))).take 20

/-- The scoring formula as the specification states it (§4.4, §8): base 50,
plus 25 for a favorable tithi, plus the fixed weekday table
(Monday +15, Wednesday +20, Thursday +10, Friday +15, others +0),
plus 15 for an auspicious nakshatra, plus 10 when
`(candidate month - birth month) mod 6 == 0`, clamped into [10, 100]. -/
def muhuratScoreSpec (epochDay : Int) (eventType : EventKey)
    (birthData : BirthData) : Int :=
  let w := jsGetDay epochDay
  min 100 (max 10 (50
    + (if (eventAuspicious eventType).contains (calculateLunarDay epochDay) then 25 else 0)
    + (if w = 1 then 15 else if w = 3 then 20 else if w = 4 then 10 else if w = 5 then 15 else 0)
    + (if nakshatraBonusApplies (getNakshatra epochDay) then 15 else 0)
    + (if (jsGetMonth epochDay - jsGetMonth birthData.date).emod 6 = 0 then 10 else 0)))

/-- Truncating remainder by 6 is zero exactly when the Euclidean remainder
is (both say 6 divides the number); bridges the JS `%` and the spec `mod`. -/
theorem tmod_six_eq_zero_iff (x : Int) : x.tmod 6 = 0 ↔ x.emod 6 = 0 := by
  constructor
  · intro h
    exact Int.emod_eq_zero_of_dvd (Int.dvd_of_tmod_eq_zero h)
  · intro h
    exact Int.tmod_eq_zero_of_dvd (Int.dvd_of_emod_eq_zero h)

/-- C1: for every candidate date, event category and birth profile the score
equals the spec formula — base 50, +25 favorable tithi, fixed weekday table,
+15 auspicious nakshatra, +10 month-phase alignment, clamped into [10, 100];
and in the §8 scenario (favorable wedding tithi, Wednesday, Rohini, phase
unaligned) the score is 50+25+20+15 = 110, clamped to 100. -/
theorem calculateMuhuratScore_formula :
    (∀ (epochDay : Int) (e : EventKey) (b : BirthData),
      calculateMuhuratScore epochDay e b = muhuratScoreSpec epochDay e b)
    ∧ (∀ (epochDay : Int) (b : BirthData),
      (eventAuspicious EventKey.wedding).contains (calculateLunarDay epochDay) = true →
      jsGetDay epochDay = 3 →
      getNakshatra epochDay = some "Rohini" →
      (jsGetMonth epochDay - jsGetMonth b.date).tmod 6 ≠ 0 →
      calculateMuhuratScore epochDay EventKey.wedding b = 100) := by
  constructor
  · intro epochDay e b
    simp only [calculateMuhuratScore, muhuratScoreSpec, auspiciousDayBonus,
      tmod_six_eq_zero_iff]
    split_ifs <;> omega
  · intro epochDay b h1 h2 h3 h4
    simp only [calculateMuhuratScore, auspiciousDayBonus, h1, h2, h3, if_true,
      if_neg h4]
    norm_num [nakshatraBonusApplies, auspiciousNakshatras]

/-- Witness for C1: the concrete date 2024-01-31 (epoch day 19753: wedding
tithi 1, Wednesday, Rohini) with a birth date 1990-03-05 (epoch day 7368,
March, phase-unaligned) scores exactly 100. -/
theorem calculateMuhuratScore_formula_witness :
    ((eventAuspicious EventKey.wedding).contains (calculateLunarDay 19753) = true)
    ∧ jsGetDay 19753 = 3
    ∧ getNakshatra 19753 = some "Rohini"
    ∧ (jsGetMonth 19753 - jsGetMonth (7368 : Int)).tmod 6 ≠ 0
    ∧ calculateMuhuratScore 19753 EventKey.wedding ⟨7368, "04:30", "Mumbai, India"⟩ = 100 :=
  ⟨by decide, by decide, by decide, by decide,
    calculateMuhuratScore_formula.2 19753 ⟨7368, "04:30", "Mumbai, India"⟩
      (by decide) (by decide) (by decide) (by decide)⟩

/-- C10: the score depends on the birth profile only through the (zero-based)
month of the birth date; the birth time and birth location never influence it. -/
theorem calculateMuhuratScore_birth_month_only :
    ∀ (b1 b2 : BirthData), jsGetMonth b1.date = jsGetMonth b2.date →
    ∀ (epochDay : Int) (e : EventKey),
      calculateMuhuratScore epochDay e b1 = calculateMuhuratScore epochDay e b2 := by
  intro b1 b2 h epochDay e
  simp only [calculateMuhuratScore, h]

/-- Witness for C10: two profiles born 1990-03-05 in Mumbai at 04:30 and
2000-03-20 in London at 23:00 (same month of year, March) get the same score
for a concrete wedding candidate. -/
theorem calculateMuhuratScore_birth_month_only_witness :
    jsGetMonth (7368 : Int) = jsGetMonth (11036 : Int)
    ∧ calculateMuhuratScore 19753 EventKey.wedding ⟨7368, "04:30", "Mumbai, India"⟩
        = calculateMuhuratScore 19753 EventKey.wedding ⟨11036, "23:00", "London, UK"⟩ :=
  ⟨by decide,
    calculateMuhuratScore_birth_month_only ⟨7368, "04:30", "Mumbai, India"⟩
      ⟨11036, "23:00", "London, UK"⟩ (by decide) 19753 EventKey.wedding⟩

/-- Ranking order on produced candidates: strictly higher score first, and
equal scores broken by ascending candidate date (earliest first). -/
def rankedBefore (a b : Muhurat) : Prop :=
  b.score < a.score ∨ (a.score = b.score ∧ a.date < b.date)

/-- Same order expressed on the loop index instead of the date. -/
def ordId (a b : Muhurat) : Prop :=
  b.score < a.score ∨ (a.score = b.score ∧ a.id < b.id)

theorem ordId_of (a x : Muhurat) (h1 : x.score ≤ a.score) (h2 : a.id < x.id) :
    ordId a x := by
  rcases lt_or_eq_of_le h1 with h | h
  · exact Or.inl h
  · exact Or.inr ⟨h.symm, h2⟩

theorem ordId_score_le {c x : Muhurat} (h : ordId c x) : x.score ≤ c.score := by
  rcases h with h | h
  · exact le_of_lt h
  · exact le_of_eq h.1.symm

/-- Ids of the produced candidates are exactly the day offsets whose score
passes the threshold, in day order. -/
theorem genLoop_map_id (b : BirthData) (e : EventKey) (t : Int)
    (rng : Nat → Fin 4) (l : List Nat) : ∀ (k : Nat),
    (genLoop b e t rng k l).map Muhurat.id
      = l.filter (fun (i : Nat) => decide (60 ≤ calculateMuhuratScore (t + (i : Int)) e b)) := by
  induction l with
  | nil => intro k; rfl
  | cons i rest ih =>
    intro k
    simp only [genLoop, List.filter_cons]
    by_cases h : 60 ≤ calculateMuhuratScore (t + (i : Int)) e b
    · simp [h, ih, mkMuhurat]
    · simp [h, ih]

/-- Every produced candidate passed the threshold, carries the date
`today + id`, and its id is one of the scanned day offsets. -/
theorem genLoop_mem (b : BirthData) (e : EventKey) (t : Int)
    (rng : Nat → Fin 4) (l : List Nat) : ∀ (k : Nat) (c : Muhurat),
    c ∈ genLoop b e t rng k l →
      60 ≤ c.score ∧ c.date = t + (c.id : Int) ∧ c.id ∈ l := by
  induction l with
  | nil => intro k c h; simp [genLoop] at h
  | cons i rest ih =>
    intro k c hc
    simp only [genLoop] at hc
    by_cases h : 60 ≤ calculateMuhuratScore (t + (i : Int)) e b
    · rw [if_pos h] at hc
      rcases List.mem_cons.mp hc with rfl | hc2
      · refine ⟨?_, ?_, ?_⟩
        · simpa [mkMuhurat] using h
        · simp [mkMuhurat]
        · simp [mkMuhurat]
      · have := ih (k + 1) c hc2
        exact ⟨this.1, this.2.1, List.mem_cons_of_mem _ this.2.2⟩
    · rw [if_neg h] at hc
      have := ih k c hc
      exact ⟨this.1, this.2.1, List.mem_cons_of_mem _ this.2.2⟩

/-- Stability of `orderedInsert`: inserting an element whose id is below all
ids in an `ordId`-sorted list keeps the list `ordId`-sorted. -/
theorem orderedInsert_pairwise_ordId (a : Muhurat) (L : List Muhurat)
    (hL : L.Pairwise ordId) (ha : ∀ x ∈ L, a.id < x.id) :
    (List.orderedInsert scoreGE a L).Pairwise ordId := by
  induction L with
  | nil => simp
  | cons c L2 ih =>
    have hL2 := List.pairwise_cons.mp hL
    by_cases h : scoreGE a c
    · rw [List.orderedInsert, if_pos h]
      refine List.pairwise_cons.mpr ⟨?_, hL⟩
      intro x hx
      rcases List.mem_cons.mp hx with rfl | hx2
      · exact ordId_of a x h (ha x (List.mem_cons_self _ _))
      · exact ordId_of a x (le_trans (ordId_score_le (hL2.1 x hx2)) h)
          (ha x (List.mem_cons_of_mem _ hx2))
    · rw [List.orderedInsert, if_neg h]
      refine List.pairwise_cons.mpr
        ⟨?_, ih hL2.2 (fun x hx => ha x (List.mem_cons_of_mem _ hx))⟩
      intro x hx
      rcases (List.mem_orderedInsert scoreGE).mp hx with rfl | hx2
      · exact Or.inl (not_le.mp h)
      · exact hL2.1 x hx2

/-- Stability of the sort: on a list with strictly increasing ids, sorting
descending by score yields a list sorted by score with score ties in
ascending id order. -/
theorem insertionSort_pairwise_ordId (l : List Muhurat)
    (hl : l.Pairwise fun x y => x.id < y.id) :
    (List.insertionSort scoreGE l).Pairwise ordId := by
  induction l with
  | nil => simp
  | cons a t ih =>
    have ht := List.pairwise_cons.mp hl
    rw [List.insertionSort]
    refine orderedInsert_pairwise_ordId a _ (ih ht.2) ?_
    intro x hx
    exact ht.1 x ((List.mem_insertionSort scoreGE).mp hx)

/-- C2: the ranker scans exactly the 90 day offsets from `today` and keeps
exactly those with score ≥ 60 (first conjunct); every returned candidate has
score ≥ 60 and a date within the 90-day horizon; the returned list is sorted
descending by score with ties in ascending date order; it has at most 20
entries; and it is the 20-entry prefix of a full sorted rearrangement of the
kept candidates. -/
theorem generateOptimizedMuhurats_ranked (b : BirthData) (e : EventKey)
    (today : Int) (rng : Nat → Fin 4) :
    ((genLoop b e today rng 0 (List.range 90)).map Muhurat.id
        = (List.range 90).filter
            (fun (i : Nat) => decide (60 ≤ calculateMuhuratScore (today + (i : Int)) e b)))
    ∧ (∀ c ∈ generateOptimizedMuhurats b e today rng,
        60 ≤ c.score ∧ ∃ i : Nat, i < 90 ∧ c.date = today + (i : Int))
    ∧ (generateOptimizedMuhurats b e today rng).Pairwise rankedBefore
    ∧ (generateOptimizedMuhurats b e today rng).length ≤ 20
    ∧ ∃ s : List Muhurat,
        s.Perm (genLoop b e today rng 0 (List.range 90))
        ∧ s.Pairwise rankedBefore
        ∧ generateOptimizedMuhurats b e today rng = s.take 20 := by
  have h_map := genLoop_map_id b e today rng (List.range 90) 0
  have h_mem := genLoop_mem b e today rng (List.range 90) 0
  have h_ids : (genLoop b e today rng 0 (List.range 90)).Pairwise
      (fun x y => x.id < y.id) := by
    refine List.pairwise_map.mp ?_
    rw [h_map]
    exact List.Pairwise.sublist (List.filter_sublist _) (List.pairwise_lt_range 90)
  have h_sorted := insertionSort_pairwise_ordId _ h_ids
  have h_ranked : (List.insertionSort scoreGE
      (genLoop b e today rng 0 (List.range 90))).Pairwise rankedBefore := by
    refine h_sorted.imp_of_mem ?_
    intro x y hx hy hxy
    have hx2 := h_mem x ((List.mem_insertionSort scoreGE).mp hx)
    have hy2 := h_mem y ((List.mem_insertionSort scoreGE).mp hy)
    rcases hxy with h | h
    · exact Or.inl h
    · refine Or.inr ⟨h.1, ?_⟩
      rw [hx2.2.1, hy2.2.1]
      omega
  refine ⟨h_map, ?_, ?_, ?_, ?_⟩
  · intro c hc
    have hc2 : c ∈ genLoop b e today rng 0 (List.range 90) :=
      (List.mem_insertionSort scoreGE).mp
        ((List.take_sublist _ _).subset hc)
    have := h_mem c hc2
    exact ⟨this.1, c.id, List.mem_range.mp this.2.2, this.2.1⟩
  · exact List.Pairwise.sublist (List.take_sublist _ _) h_ranked
  · exact List.length_take_le _ _
  · exact ⟨List.insertionSort scoreGE (genLoop b e today rng 0 (List.range 90)),
      List.perm_insertionSort _ _, h_ranked, rfl⟩

/-- Witness for C2: the candidate materialized for day offset 30 (epoch day
19753) is in the concrete ranking for a 1990-03-05 birth profile, and the
theorem yields its score bound and horizon membership. -/
theorem generateOptimizedMuhurats_ranked_witness :
    (mkMuhurat ⟨7368, "04:30", "Mumbai, India"⟩ EventKey.wedding 19723 0 30
        ∈ generateOptimizedMuhurats ⟨7368, "04:30", "Mumbai, India"⟩
            EventKey.wedding 19723 (fun _ => 0))
    ∧ (60 ≤ (mkMuhurat ⟨7368, "04:30", "Mumbai, India"⟩ EventKey.wedding 19723 0 30).score
        ∧ ∃ i : Nat, i < 90
            ∧ (mkMuhurat ⟨7368, "04:30", "Mumbai, India"⟩ EventKey.wedding 19723 0 30).date
                = 19723 + (i : Int)) :=
  ⟨by decide,
    (generateOptimizedMuhurats_ranked ⟨7368, "04:30", "Mumbai, India"⟩
        EventKey.wedding 19723 (fun _ => 0)).2.1 _ (by decide)⟩

set_option maxRecDepth 10000

/-- C3 (failing input): with the same birth profile, category and `today`,
two runs that differ only in the `Math.random()` draws for the display time
slot return the same candidates with the same scores in the same order, but
different `time` fields — the slot choice is randomized, not deterministic. -/
theorem timeSlot_random_divergence :
    ((generateOptimizedMuhurats ⟨7368, "04:30", "Mumbai, India"⟩
          EventKey.wedding 19723 (fun _ => 0)).map (fun c => (c.id, c.score))
      = (generateOptimizedMuhurats ⟨7368, "04:30", "Mumbai, India"⟩
          EventKey.wedding 19723 (fun _ => 1)).map (fun c => (c.id, c.score)))
    ∧ (generateOptimizedMuhurats ⟨7368, "04:30", "Mumbai, India"⟩
          EventKey.wedding 19723 (fun _ => 0)).map Muhurat.time
        ≠ (generateOptimizedMuhurats ⟨7368, "04:30", "Mumbai, India"⟩
          EventKey.wedding 19723 (fun _ => 1)).map Muhurat.time :=
  ⟨by decide, by decide⟩

/-- Result of `calculateTithi` in the Swiss-ephemeris scripts. -/
structure TithiResult where
  tithi : Int
  tithiName : Option String
  paksha : String
deriving DecidableEq

/-- The `tithiNames` table of `calculateTithi` (sweph test script). -/
def tithiNames : List String :=
  ["Pratipada", "Dwitiya", "Tritiya", "Chaturthi", "Panchami",
   "Shashthi", "Saptami", "Ashtami", "Navami", "Dashami",
   "Ekadashi", "Dwadashi", "Trayodashi", "Chaturdashi", "Purnima",
   "Pratipada", "Dwitiya", "Tritiya", "Chaturthi", "Panchami",
   "Shashthi", "Saptami", "Ashtami", "Navami", "Dashami",
   "Ekadashi", "Dwadashi", "Trayodashi", "Chaturdashi", "Amavasya"]

/-- `calculateTithi` from the Swiss-ephemeris scripts: Moon-minus-Sun angle,
one conditional `+360` normalization, `floor(angle / 12) + 1`.  An
out-of-range JS array read yields `undefined`, modelled as `none`. -/
def calculateTithi (sunLongitude moonLongitude : ℚ) : TithiResult :=
  let angle := moonLongitude - sunLongitude
  let angle := if angle < 0 then angle + 360 else angle
  let tithi := ⌊angle / 12⌋ + 1
  { tithi := tithi
    tithiName := if tithi - 1 < 0 then none else tithiNames.get? (tithi - 1).toNat
    paksha := if tithi ≤ 15 then "Shukla" else "Krishna" }

/-- The nakshatra index computed in `calculatePlanetaryPositions`:
`Math.floor(longitude * 27 / 360)` — no clamping. -/
def nakshatraIndex (longitude : ℚ) : Int :=
  ⌊longitude * 27 / 360⌋

/-- Mathematical remainder into `[0, m)`, as used by the specification when
it writes `(moonLon − sunLon) mod 360`. -/
def ratMod (x m : ℚ) : ℚ := x - m * ⌊x / m⌋

/-- The fifteen muhurta intervals computed inside `calculateMuhurta`:
interval `i` runs from `sunriseJD + i*muhurtaDuration/24` to
`sunriseJD + (i+1)*muhurtaDuration/24` (Julian days; duration in hours). -/
def muhurtaIntervals (sunriseJD sunsetJD : ℚ) : List (ℚ × ℚ) :=
  let dayLength := (sunsetJD - sunriseJD) * 24
  let muhurtaDuration := dayLength / 15
  (List.range 15).map fun (i : Nat) =>
    (sunriseJD + ((i : ℚ) * muhurtaDuration) / 24,
     sunriseJD + (((i : ℚ) + 1) * muhurtaDuration) / 24)

/-- The result record of `calculateMuhurta` (sweph scripts).  Per-interval
metadata (names, random quality labels, tithi strings) needs the external
ephemeris process and is omitted; the structure has no field marking the
sunrise/sunset as approximate. -/
structure MuhurtaResult where
  success : Bool
  sunrise : ℚ
  sunset : ℚ
  dayLength : ℚ
  intervals : List (ℚ × ℚ)
deriving DecidableEq

/-- `calculateMuhurta` from the Swiss-ephemeris scripts, for the day given
by Julian day `julianDay` (midnight) at the given location: the sunrise and
sunset are the hard-coded 6 AM / 6 PM placeholders (`julianDay + 6/24` and
`julianDay + 18/24`); the latitude and longitude are never used by the
computation (the source only passes them to `sweph.set_topo`). -/
def calculateMuhurta (julianDay : ℚ) (latitude longitude : ℚ) : MuhurtaResult :=
  let sunriseJD := julianDay + 6 / 24
  let sunsetJD := julianDay + 18 / 24
  let dayLength := (sunsetJD - sunriseJD) * 24
  { success := true
    sunrise := sunriseJD
    sunset := sunsetJD
    dayLength := dayLength
    intervals := muhurtaIntervals sunriseJD sunsetJD }

/-- C4: for longitudes in `[0, 360)` the tithi equals
`floor(((moonLon - sunLon) mod 360) / 12) + 1` and lies in `1..30`; and the
§8 scenario `sunLon = 280, moonLon = 10` yields tithi 8, Shukla paksha. -/
theorem calculateTithi_formula :
    (∀ s m : ℚ, 0 ≤ s → s < 360 → 0 ≤ m → m < 360 →
      (calculateTithi s m).tithi = ⌊ratMod (m - s) 360 / 12⌋ + 1
      ∧ 1 ≤ (calculateTithi s m).tithi ∧ (calculateTithi s m).tithi ≤ 30)
    ∧ (calculateTithi 280 10).tithi = 8
    ∧ (calculateTithi 280 10).paksha = "Shukla" := by
  refine ⟨?_, ?_, ?_⟩
  · intro s m hs0 hs1 hm0 hm1
    have key : (if m - s < 0 then m - s + 360 else m - s) = ratMod (m - s) 360 := by
      unfold ratMod
      by_cases h : m - s < 0
      · rw [if_pos h]
        have hfl : ⌊(m - s) / 360⌋ = -1 := by
          rw [Int.floor_eq_iff]
          constructor
          · rw [le_div_iff (show (0:ℚ) < 360 by norm_num)]
            push_cast
            linarith
          · push_cast
            rw [div_lt_iff (show (0:ℚ) < 360 by norm_num)]
            linarith
        rw [hfl]
        push_cast
        ring
      · rw [if_neg h]
        have hfl : ⌊(m - s) / 360⌋ = 0 := by
          rw [Int.floor_eq_iff]
          constructor
          · push_cast
            exact div_nonneg (by linarith) (by norm_num)
          · push_cast
            rw [div_lt_iff (show (0:ℚ) < 360 by norm_num)]
            linarith
        rw [hfl]
        push_cast
        ring
    have hrange : 0 ≤ (if m - s < 0 then m - s + 360 else m - s)
        ∧ (if m - s < 0 then m - s + 360 else m - s) < 360 := by
      by_cases h : m - s < 0
      · rw [if_pos h]; constructor <;> linarith
      · rw [if_neg h]; constructor <;> linarith
    refine ⟨?_, ?_, ?_⟩
    · simp only [calculateTithi, key]
    · simp only [calculateTithi]
      have : (0:ℤ) ≤ ⌊(if m - s < 0 then m - s + 360 else m - s) / 12⌋ :=
        Int.floor_nonneg.mpr (div_nonneg hrange.1 (by norm_num))
      omega
    · simp only [calculateTithi]
      have : ⌊(if m - s < 0 then m - s + 360 else m - s) / 12⌋ < 30 := by
        refine Int.floor_lt.mpr ?_
        push_cast
        rw [div_lt_iff (show (0:ℚ) < 12 by norm_num)]
        linarith [hrange.2]
      omega
  · norm_num [calculateTithi]
  · norm_num [calculateTithi]

/-- Witness for C4: the theorem applied at the §8 scenario longitudes. -/
theorem calculateTithi_formula_witness :
    ((0:ℚ) ≤ 280 ∧ (280:ℚ) < 360 ∧ (0:ℚ) ≤ 10 ∧ (10:ℚ) < 360)
    ∧ ((calculateTithi 280 10).tithi = ⌊ratMod ((10:ℚ) - 280) 360 / 12⌋ + 1
        ∧ 1 ≤ (calculateTithi 280 10).tithi ∧ (calculateTithi 280 10).tithi ≤ 30) :=
  ⟨by norm_num,
    calculateTithi_formula.1 280 10 (by norm_num) (by norm_num) (by norm_num)
      (by norm_num)⟩

/-- C9 (counterexample): at the spec's own scenario longitudes the wrap
invariance fails — `calculateTithi` normalizes a negative angle by a single
`+360`, so shifting the Sun longitude by a full turn when the Moon is behind
the Sun leaves the angle negative and produces tithi −22 instead of 8. -/
theorem calculateTithi_wrap_cex :
    (calculateTithi 280 10).tithi = 8
    ∧ (calculateTithi (280 + 360) 10).tithi = -22
    ∧ (calculateTithi (280 + 360) 10).tithi ≠ (calculateTithi 280 10).tithi := by
  refine ⟨?_, ?_, ?_⟩ <;> norm_num [calculateTithi]

/-- C9 (amended): for longitudes in `[0, 360)` with `sunLon ≤ moonLon`, the
tithi is invariant under adding a full 360° turn to the Sun longitude. -/
theorem calculateTithi_wrap (s m : ℚ) (hs0 : 0 ≤ s) (hs1 : s < 360)
    (hm0 : 0 ≤ m) (hm1 : m < 360) (hle : s ≤ m) :
    (calculateTithi (s + 360) m).tithi = (calculateTithi s m).tithi := by
  simp only [calculateTithi]
  have h1 : m - (s + 360) < 0 := by linarith
  have h2 : ¬ m - s < 0 := by linarith
  rw [if_pos h1, if_neg h2]
  have : m - (s + 360) + 360 = m - s := by ring
  rw [this]

/-- Witness for C9's amended theorem at `sunLon = 10, moonLon = 20`. -/
theorem calculateTithi_wrap_witness :
    ((0:ℚ) ≤ 10 ∧ (10:ℚ) < 360 ∧ (0:ℚ) ≤ 20 ∧ (20:ℚ) < 360 ∧ (10:ℚ) ≤ 20)
    ∧ (calculateTithi (10 + 360) 20).tithi = (calculateTithi 10 20).tithi :=
  ⟨by norm_num,
    calculateTithi_wrap 10 20 (by norm_num) (by norm_num) (by norm_num)
      (by norm_num) (by norm_num)⟩

/-- C8 (counterexample): at exactly 360° the code's nakshatra index is 27,
outside `[0, 26]` — there is no clamp in the source. -/
theorem nakshatraIndex_at_360 :
    nakshatraIndex 360 = 27 ∧ ¬ nakshatraIndex 360 ≤ 26 := by
  norm_num [nakshatraIndex]

/-- C8 (amended): the index is monotone in the longitude; on `[0, 360)` it
equals `floor(longitude * 27 / 360)` and lies in `[0, 26]`; and every index
0..26 is attained on `[0, 360)` (no gaps). -/
theorem nakshatraIndex_monotone_cover :
    (∀ a b : ℚ, a ≤ b → nakshatraIndex a ≤ nakshatraIndex b)
    ∧ (∀ lon : ℚ, 0 ≤ lon → lon < 360 →
        nakshatraIndex lon = ⌊lon * 27 / 360⌋
        ∧ 0 ≤ nakshatraIndex lon ∧ nakshatraIndex lon ≤ 26)
    ∧ (∀ k : Int, 0 ≤ k → k ≤ 26 →
        ∃ lon : ℚ, 0 ≤ lon ∧ lon < 360 ∧ nakshatraIndex lon = k) := by
  refine ⟨?_, ?_, ?_⟩
  · intro a b h
    apply Int.floor_le_floor
    gcongr
  · intro lon h0 h1
    refine ⟨rfl, ?_, ?_⟩
    · exact Int.floor_nonneg.mpr (by positivity)
    · have hlt : ⌊lon * 27 / 360⌋ < 27 := by
        refine Int.floor_lt.mpr ?_
        push_cast
        rw [div_lt_iff (show (0:ℚ) < 360 by norm_num)]
        linarith
      unfold nakshatraIndex
      omega
  · intro k hk0 hk1
    refine ⟨(k : ℚ) * 360 / 27, ?_, ?_, ?_⟩
    · have : (0:ℚ) ≤ (k : ℚ) := by exact_mod_cast hk0
      positivity
    · have : (k : ℚ) ≤ 26 := by exact_mod_cast hk1
      rw [div_lt_iff (show (0:ℚ) < 27 by norm_num)]
      linarith
    · have heq : (k : ℚ) * 360 / 27 * 27 / 360 = (k : ℚ) := by ring
      rw [nakshatraIndex, heq, Int.floor_intCast]

/-- Witness for C8's amended theorem at concrete longitudes and index 5. -/
theorem nakshatraIndex_monotone_cover_witness :
    nakshatraIndex 100 ≤ nakshatraIndex 200
    ∧ (nakshatraIndex 100 = ⌊(100:ℚ) * 27 / 360⌋
        ∧ 0 ≤ nakshatraIndex 100 ∧ nakshatraIndex 100 ≤ 26)
    ∧ (∃ lon : ℚ, 0 ≤ lon ∧ lon < 360 ∧ nakshatraIndex lon = 5) :=
  ⟨nakshatraIndex_monotone_cover.1 100 200 (by norm_num),
    nakshatraIndex_monotone_cover.2.1 100 (by norm_num) (by norm_num),
    nakshatraIndex_monotone_cover.2.2 5 (by norm_num) (by norm_num)⟩

/-- C6 (failing input): for every date and location the muhurta calculation
reports success with the fabricated fixed 6 AM / 6 PM window, and its result
is bit-for-bit identical across different locations — it cannot contain a
real location-dependent sunrise or sunset, and `MuhurtaResult` carries no
approximation marker that could distinguish it from a real computation. -/
theorem calculateMuhurta_fixed_window :
    ∀ (julianDay lat1 lon1 lat2 lon2 : ℚ),
      (calculateMuhurta julianDay lat1 lon1).success = true
      ∧ (calculateMuhurta julianDay lat1 lon1).sunrise = julianDay + 6 / 24
      ∧ (calculateMuhurta julianDay lat1 lon1).sunset = julianDay + 18 / 24
      ∧ calculateMuhurta julianDay lat1 lon1 = calculateMuhurta julianDay lat2 lon2 :=
  fun _ _ _ _ _ => ⟨rfl, rfl, rfl, rfl⟩

/-- The partition property claimed for the daylight partitioner: exactly 15
intervals, each of the exact form `[sunrise + i*u, sunrise + (i+1)*u)` with
`u = (sunset - sunrise)/15`, contiguous, starting at sunrise, ending at
sunset, of equal duration `u`, mutually non-overlapping, whose union is
exactly `[sunrise, sunset)`. -/
def MuhurtaPartitionSpec (sunriseJD sunsetJD : ℚ) : Prop :=
  let L := muhurtaIntervals sunriseJD sunsetJD
  let u := (sunsetJD - sunriseJD) / 15
  L.length = 15
  ∧ (∀ i : Nat, i < 15 →
      L.getD i (0, 0) = (sunriseJD + (i : ℚ) * u, sunriseJD + ((i : ℚ) + 1) * u))
  ∧ (∀ i : Nat, i + 1 < 15 → (L.getD i (0, 0)).2 = (L.getD (i + 1) (0, 0)).1)
  ∧ (L.getD 0 (0, 0)).1 = sunriseJD
  ∧ (L.getD 14 (0, 0)).2 = sunsetJD
  ∧ (∀ p ∈ L, p.2 - p.1 = u)
  ∧ L.Pairwise (fun p q => p.2 ≤ q.1)
  ∧ (∀ t : ℚ, (sunriseJD ≤ t ∧ t < sunsetJD) ↔ ∃ p ∈ L, p.1 ≤ t ∧ t < p.2)

/-- C5: for every sunrise strictly before sunset the fifteen muhurta
intervals partition `[sunrise, sunset)` exactly, each with duration
`(sunset - sunrise)/15` (exact — the rational model has no rounding). -/
theorem muhurtaIntervals_partition (sunriseJD sunsetJD : ℚ)
    (h : sunriseJD < sunsetJD) : MuhurtaPartitionSpec sunriseJD sunsetJD := by
  have hd : 0 < sunsetJD - sunriseJD := by linarith
  set u : ℚ := (sunsetJD - sunriseJD) / 15 with hu_def
  have hu : 0 < u := by positivity
  have hL : muhurtaIntervals sunriseJD sunsetJD
      = (List.range 15).map
          (fun (i : Nat) => (sunriseJD + (i : ℚ) * u, sunriseJD + ((i : ℚ) + 1) * u)) := by
    simp only [muhurtaIntervals]
    refine List.map_congr_left ?_
    intro i _
    rw [hu_def]
    refine Prod.ext ?_ ?_ <;> · simp only; ring
  have hElem : ∀ i : Nat, i < 15 →
      (muhurtaIntervals sunriseJD sunsetJD).getD i (0, 0)
        = (sunriseJD + (i : ℚ) * u, sunriseJD + ((i : ℚ) + 1) * u) := by
    intro i hi
    rw [hL, List.getD_eq_getElem?_getD, List.getElem?_map, List.getElem?_range hi]
    rfl
  refine ⟨?_, hElem, ?_, ?_, ?_, ?_, ?_, ?_⟩
  · simp [muhurtaIntervals]
  · intro i hi
    rw [hElem i (by omega), hElem (i + 1) hi]
    push_cast
    ring
  · rw [hElem 0 (by norm_num)]
    norm_num
  · rw [hElem 14 (by norm_num)]
    simp only
    rw [hu_def]
    ring
  · intro p hp
    rw [hL] at hp
    obtain ⟨i, _, rfl⟩ := List.mem_map.mp hp
    simp only
    ring
  · rw [hL]
    refine List.pairwise_map.mpr ?_
    refine (List.pairwise_lt_range 15).imp ?_
    intro i j hij
    simp only
    have hij2 : ((i : ℚ) + 1) ≤ (j : ℚ) := by exact_mod_cast hij
    have := mul_le_mul_of_nonneg_right hij2 hu.le
    linarith
  · intro t
    constructor
    · rintro ⟨ht0, ht1⟩
      have hx0 : 0 ≤ (t - sunriseJD) / u := div_nonneg (by linarith) hu.le
      have h15u : 15 * u = sunsetJD - sunriseJD := by rw [hu_def]; ring
      have hx15 : (t - sunriseJD) / u < 15 := by
        rw [div_lt_iff hu]
        linarith
      have hfl0 : 0 ≤ ⌊(t - sunriseJD) / u⌋ := Int.floor_nonneg.mpr hx0
      have hfl15 : ⌊(t - sunriseJD) / u⌋ < 15 := by
        refine Int.floor_lt.mpr ?_
        push_cast
        exact hx15
      refine ⟨(sunriseJD + (⌊(t - sunriseJD) / u⌋.toNat : ℚ) * u,
          sunriseJD + ((⌊(t - sunriseJD) / u⌋.toNat : ℚ) + 1) * u), ?_, ?_, ?_⟩
      · rw [hL]
        exact List.mem_map_of_mem _ (List.mem_range.mpr (by omega))
      · simp only
        have hcast : ((⌊(t - sunriseJD) / u⌋.toNat : ℚ)) = (⌊(t - sunriseJD) / u⌋ : ℚ) := by
          exact_mod_cast Int.toNat_of_nonneg hfl0
        rw [hcast]
        have hle := Int.floor_le ((t - sunriseJD) / u)
        rw [le_div_iff hu] at hle
        linarith
      · simp only
        have hcast : ((⌊(t - sunriseJD) / u⌋.toNat : ℚ)) = (⌊(t - sunriseJD) / u⌋ : ℚ) := by
          exact_mod_cast Int.toNat_of_nonneg hfl0
        rw [hcast]
        have hlt := Int.lt_floor_add_one ((t - sunriseJD) / u)
        rw [div_lt_iff hu] at hlt
        linarith
    · rintro ⟨p, hp, hp1, hp2⟩
      rw [hL] at hp
      obtain ⟨i, hi, rfl⟩ := List.mem_map.mp hp
      have hi15 : i < 15 := List.mem_range.mp hi
      simp only at hp1 hp2
      have h0 : (0:ℚ) ≤ (i : ℚ) * u := by positivity
      have h15 : ((i : ℚ) + 1) * u ≤ 15 * u := by
        have : ((i : ℚ) + 1) ≤ 15 := by exact_mod_cast hi15
        exact mul_le_mul_of_nonneg_right this hu.le
      have h15u : 15 * u = sunsetJD - sunriseJD := by rw [hu_def]; ring
      constructor <;> linarith

/-- Witness for C5 at the concrete window `[1/4, 3/4]` (the prototype's
6 AM / 6 PM day expressed in Julian-day fractions). -/
theorem muhurtaIntervals_partition_witness :
    (1:ℚ)/4 < 3/4 ∧ MuhurtaPartitionSpec (1/4) (3/4) :=
  ⟨by norm_num, muhurtaIntervals_partition (1/4) (3/4) (by norm_num)⟩

/-- Outcome of the spawned calculator process as observed by
`runCalculation`: either the spawn itself fails (the `error` event), or the
process closes with an exit code (`null` when killed by a signal) after the
full stdout and stderr streams have been captured. -/
inductive SpawnOutcome where
  | startFailure (message : String)
  | exited (exitCode : Option Int) (stdoutData stderrData : String)
deriving DecidableEq

/-- `runCalculation` from `sweph-service.ts`: resolves with the JSON document
parsed from the fully captured stdout when the child exits with code 0 and
the output parses; rejects on any other exit code, on spawn failure, or on a
parse failure.  `JSON.parse` is the external `parseJson` parameter. -/
def runCalculation {J : Type} (parseJson : String → Option J) :
    SpawnOutcome → Except String J
  | .startFailure message =>
      .error ("Failed to start calculator process: " ++ message)
  | .exited exitCode stdoutData stderrData =>
      if exitCode = some 0 then
        match parseJson stdoutData with
        | some result => .ok result
        | none => .error "Failed to parse calculator output"
      else
        .error ("Calculator process exited with code: " ++ stderrData)

/-- C7: the call succeeds with the parsed document exactly when the child
exited with code 0 and the captured stdout parses; any non-zero (or signal)
exit code fails the call regardless of the stdout content, as does a spawn
failure or a parse failure. -/
theorem runCalculation_ok_iff (J : Type) (parseJson : String → Option J) :
    (∀ (o : SpawnOutcome) (j : J),
      runCalculation parseJson o = Except.ok j
        ↔ ∃ out err, o = SpawnOutcome.exited (some 0) out err ∧ parseJson out = some j)
    ∧ (∀ (c : Option Int) (out err : String), c ≠ some 0 →
        ∀ j : J, runCalculation parseJson (SpawnOutcome.exited c out err) ≠ Except.ok j) := by
  constructor
  · intro o j
    constructor
    · intro h
      cases o with
      | startFailure message => simp [runCalculation] at h
      | exited exitCode stdoutData stderrData =>
        by_cases hc : exitCode = some 0
        · subst hc
          refine ⟨stdoutData, stderrData, rfl, ?_⟩
          rw [runCalculation, if_pos rfl] at h
          cases hp : parseJson stdoutData with
          | none => rw [hp] at h; simp at h
          | some r => rw [hp] at h; simp at h; simp [h]
        · rw [runCalculation, if_neg hc] at h
          simp at h
    · rintro ⟨out, err, rfl, hp⟩
      rw [runCalculation, if_pos rfl, hp]
  · intro c out err hc j
    rw [runCalculation, if_neg hc]
    simp

/-- Witness for C7: a concrete parser on concrete outcomes — exit code 0
with parseable stdout succeeds with the parsed value; exit code 1 with the
same stdout fails. -/
theorem runCalculation_ok_iff_witness :
    runCalculation (fun s => some s.length) (SpawnOutcome.exited (some 0) "ok" "")
        = Except.ok 2
    ∧ runCalculation (fun s => some s.length) (SpawnOutcome.exited (some 1) "ok" "")
        ≠ Except.ok 2 :=
  ⟨(runCalculation_ok_iff Nat (fun s => some s.length)).1
      (SpawnOutcome.exited (some 0) "ok" "") 2 |>.mpr ⟨"ok", "", rfl, rfl⟩,
    (runCalculation_ok_iff Nat (fun s => some s.length)).2
      (some 1) "ok" "" (by decide) 2⟩
